import Mathlib

/-!
Verification of the MIRT pipeline orchestrator (`start_mirt_pipeline.py`).

The script is shallowly embedded as follows:
* `Arguments` mirrors the `argparse` namespace object produced by
  `get_command_line_arguments`, and `parse_tokens` models the `argparse`
  option parsing for exactly the options the script registers.
* Pipeline execution is modelled as a trace semantics: each call into an
  external collaborator (trainer, splitter, visualizer, ...) is recorded
  as an `Effect`; an `Env` records which external calls succeed and what
  files the trainer leaves in the artifact directory.  A Python exception
  aborts everything after it, which the semantics mirrors by returning the
  partial trace together with a completion flag.
* `shutil.copyfile` is additionally modelled against a map-style
  filesystem to reason about file contents.
-/

namespace MirtPipeline

/-- The `argparse` result namespace built by `get_command_line_arguments`:
one field per registered option plus the `datetime` attribute the script
attaches after parsing. -/
structure Arguments where
  generate : Bool
  train : Bool
  visualize : Bool
  test : Bool
  data_file : String
  abilities : Int
  num_students : Int
  num_problems : Int
  time : Bool
  workers : Int
  num_epochs : Int
  model_directory : String
  model : String
  datetime : String
deriving DecidableEq

/-- The parser defaults: `argparse` default values of the script, with the
directory of the script itself (`os.path.dirname(os.path.abspath(__file__))`)
taken as a parameter. -/
def default_arguments (scriptDir : String) : Arguments :=
  { generate := false
    train := false
    visualize := false
    test := false
    data_file := scriptDir ++ "/sample_data/all.responses"
    abilities := 1
    num_students := 500
    num_problems := 10
    time := false
    workers := 1
    num_epochs := 100
    model_directory := scriptDir ++ "/sample_data/models/"
    model := scriptDir ++ "/sample_data/models/model.json"
    datetime := "" }

/-- Value of a decimal digit character, `none` on anything else. -/
def digit_val (c : Char) : Option Nat :=
  if 48 ≤ c.toNat ∧ c.toNat ≤ 57 then some (c.toNat - 48) else none

/-- Accumulate decimal digits left to right. -/
def parse_digits : List Char → Nat → Option Nat
  | [], acc => some acc
  | c :: cs, acc =>
      match digit_val c with
      | some d => parse_digits cs (10 * acc + d)
      | none => none

/-- A non-empty all-digit character list as a number. -/
def parse_nat : List Char → Option Nat
  | [] => none
  | l => parse_digits l 0

/-- Python's `int(s)` on a decimal literal with an optional sign, as
`argparse`'s `type=int` applies it to an option value. -/
def str_to_int (s : String) : Option Int :=
  match s.data with
  | '-' :: rest => (parse_nat rest).map (fun n => -(n : Int))
  | '+' :: rest => (parse_nat rest).map (fun n => (n : Int))
  | l => (parse_nat l).map (fun n => (n : Int))

/-- `argparse` option parsing for the options registered by
`get_command_line_arguments`: four stage flags and `-t` are `store_true`
switches, `-d`/`-o`/`-m` take a string, and `-a`/`-s`/`-p`/`-w`/`-n` take an
`int` (rejecting tokens that are not integer literals, as `type=int` does).
An unrecognized token is an error.  No range check of any kind is applied
to the integer options. -/
def parse_tokens : List String → Arguments → Except String Arguments
  | [], args => Except.ok args
  | "--generate" :: rest, args => parse_tokens rest { args with generate := true }
  | "--train" :: rest, args => parse_tokens rest { args with train := true }
  | "--visualize" :: rest, args => parse_tokens rest { args with visualize := true }
  | "--test" :: rest, args => parse_tokens rest { args with test := true }
  | "-t" :: rest, args => parse_tokens rest { args with time := true }
  | "--time" :: rest, args => parse_tokens rest { args with time := true }
  | "-d" :: v :: rest, args => parse_tokens rest { args with data_file := v }
  | "--data_file" :: v :: rest, args => parse_tokens rest { args with data_file := v }
  | "-o" :: v :: rest, args => parse_tokens rest { args with model_directory := v }
  | "--model_directory" :: v :: rest, args =>
      parse_tokens rest { args with model_directory := v }
  | "-m" :: v :: rest, args => parse_tokens rest { args with model := v }
  | "--model" :: v :: rest, args => parse_tokens rest { args with model := v }
  | "-a" :: v :: rest, args =>
      match str_to_int v with
      | some n => parse_tokens rest { args with abilities := n }
      | none => Except.error ("argument -a: invalid int value: " ++ v)
  | "--abilities" :: v :: rest, args =>
      match str_to_int v with
      | some n => parse_tokens rest { args with abilities := n }
      | none => Except.error ("argument -a: invalid int value: " ++ v)
  | "-s" :: v :: rest, args =>
      match str_to_int v with
      | some n => parse_tokens rest { args with num_students := n }
      | none => Except.error ("argument -s: invalid int value: " ++ v)
  | "--num_students" :: v :: rest, args =>
      match str_to_int v with
      | some n => parse_tokens rest { args with num_students := n }
      | none => Except.error ("argument -s: invalid int value: " ++ v)
  | "-p" :: v :: rest, args =>
      match str_to_int v with
      | some n => parse_tokens rest { args with num_problems := n }
      | none => Except.error ("argument -p: invalid int value: " ++ v)
  | "--num_problems" :: v :: rest, args =>
      match str_to_int v with
      | some n => parse_tokens rest { args with num_problems := n }
      | none => Except.error ("argument -p: invalid int value: " ++ v)
  | "-w" :: v :: rest, args =>
      match str_to_int v with
      | some n => parse_tokens rest { args with workers := n }
      | none => Except.error ("argument -w: invalid int value: " ++ v)
  | "--workers" :: v :: rest, args =>
      match str_to_int v with
      | some n => parse_tokens rest { args with workers := n }
      | none => Except.error ("argument -w: invalid int value: " ++ v)
  | "-n" :: v :: rest, args =>
      match str_to_int v with
      | some n => parse_tokens rest { args with num_epochs := n }
      | none => Except.error ("argument -n: invalid int value: " ++ v)
  | "--num_epochs" :: v :: rest, args =>
      match str_to_int v with
      | some n => parse_tokens rest { args with num_epochs := n }
      | none => Except.error ("argument -n: invalid int value: " ++ v)
  | tok :: _, _ => Except.error ("unrecognized arguments: " ++ tok)

/-- Observable actions of the orchestrator: console prints and every call
that touches the filesystem or an external collaborator. -/
inductive Effect where
  | printMsg (s : String)
  | printHelp
  | mkdir_p (path : String)
  | generate_responses_run
  | sep_into_train_and_test (dataFile modelDir : String)
  | run_programmatically (params : List String)
  | copyfile (src dst : String)
  | load_and_simulate_assessment (model rocFile testFile : String)
  | show_roc (key : String)
  | show_exercises (model : String)
  | adaptive_pretest_main (model : String)
deriving DecidableEq

/-- Behaviour of the external collaborators of one run: whether each call
returns normally (`false` = it raises), and the directory listing the
external trainer leaves behind in the artifact directory. -/
structure Env where
  generateOk : Bool
  splitOk : Bool
  trainerOk : Bool
  artifactListing : List String
  rocOk : Bool
  showRocOk : Bool
  showExercisesOk : Bool
deriving DecidableEq

/-- The usage message the script prints when no task was requested. -/
def usage_msg : String :=
  "\nMust specify at least one task (--generate, --train, --visualize, --test).\n"

/-- The help-or-nothing prefix of the trace: the script prints the usage
message and the parser help exactly when no stage flag was supplied. -/
def usage_effects (args : Arguments) : List Effect :=
  if !(args.generate || args.train || args.visualize || args.test) then
    [Effect.printMsg usage_msg, Effect.printHelp]
  else []

/-- `get_command_line_arguments`: parse the supplied token list against the
defaults, emit the usage guidance when no stage flag is set, and stamp the
current wall-clock time onto the result. -/
def get_command_line_arguments (tokens : List String) (scriptDir now : String) :
    Except String (List Effect × Arguments) :=
  match parse_tokens tokens (default_arguments scriptDir) with
  | Except.error e => Except.error e
  | Except.ok args =>
      Except.ok (usage_effects args, { args with datetime := now })

/-- `gen_param_str`: `"%s_%s_%s" % (abilities, time_str, datetime)`. -/
def gen_param_str (args : Arguments) : String :=
  Int.repr args.abilities ++ "_" ++ (if args.time then "time" else "no_time")
    ++ "_" ++ args.datetime

/-- The output directory string built in `generate_model_with_parameters`:
`arguments.model_directory + param_str + '/'`. -/
def out_dir_name (args : Arguments) : String :=
  args.model_directory ++ gen_param_str args ++ "/"

/-- The directory string built in `get_latest_parameter_file_name`:
`arguments.model_directory + params + '/'`. -/
def resolver_path (args : Arguments) : String :=
  args.model_directory ++ gen_param_str args ++ "/"

/-- Python's `str.split(sep)` for a one-character separator, on the
character list of the string. -/
def split_on_char (c : Char) : List Char → List (List Char)
  | [] => [[]]
  | x :: xs =>
      let r := split_on_char c xs
      if x = c then [] :: r
      else
        match r with
        | [] => [[x]]
        | y :: ys => (x :: y) :: ys

/-- The sort key of `get_latest_parameter_file_name`:
`fname.split('_')[-1]`, as a character list. -/
def sort_key (fname : String) : List Char :=
  (split_on_char '_' fname.data).getLastD []

/-- Python's lexicographic string comparison (at most), character code by
character code. -/
def charlist_le : List Char → List Char → Bool
  | [], _ => true
  | _ :: _, [] => false
  | a :: as, b :: bs =>
      if a.toNat < b.toNat then true
      else if b.toNat < a.toNat then false
      else charlist_le as bs

/-- The comparison the Python `list.sort(key=...)` call induces on
filenames: compare their sort keys. -/
def key_le (a b : String) : Prop := charlist_le (sort_key a) (sort_key b) = true

instance : DecidableRel key_le := fun a b =>
  inferInstanceAs (Decidable (charlist_le (sort_key a) (sort_key b) = true))

/-- `get_latest_parameter_file_name`: list the artifact directory, sort the
names ascending by the substring after the last `'_'` (a stable sort, as
Python's `list.sort` is), and return the directory path prepended to the
last element; the subscript `[-1]` fails on an empty listing. -/
def get_latest_parameter_file_name (env : Env) (args : Arguments) : Option String :=
  let path := resolver_path args
  let sorted := List.insertionSort key_le env.artifactListing
  match sorted.getLast? with
  | none => none
  | some f => some (path ++ f)

/-- The trainer invocation parameters built in
`generate_model_with_parameters`. -/
def mirt_train_params (args : Arguments) : List String :=
  let base := ["-a", Int.repr args.abilities,
               "-w", Int.repr args.workers,
               "-n", Int.repr args.num_epochs,
               "-f", args.model_directory ++ "train.responses",
               "-o", out_dir_name args]
  if args.time then base ++ ["-z"] else base

/-- `make_necessary_directories`: create the shared `rocs/` directory under
the model root (idempotently, via `mkdir_p`). -/
def make_necessary_directories (args : Arguments) : List Effect :=
  [Effect.mkdir_p (args.model_directory ++ "rocs/")]

/-- `generate_model_with_parameters`: create the artifact directory, then
invoke the external trainer with the built parameter list; the completion
flag is the trainer's. -/
def generate_model_with_parameters (env : Env) (args : Arguments) :
    List Effect × Bool :=
  ([Effect.mkdir_p (out_dir_name args),
    Effect.run_programmatically (mirt_train_params args)], env.trainerOk)

/-- `save_model`: resolve the most recent parameter file and copy it to the
configured model path; resolution on an empty listing raises before
anything is printed or copied. -/
def save_model (env : Env) (args : Arguments) : List Effect × Bool :=
  match get_latest_parameter_file_name env args with
  | none => ([], false)
  | some latest =>
      ([Effect.printMsg ("Saving model to " ++ args.model),
        Effect.copyfile latest args.model], true)

/-- Sequencing with Python exception semantics: if the first fragment
raised, the second never runs. -/
def seq2 (a b : List Effect × Bool) : List Effect × Bool :=
  if a.2 then (a.1 ++ b.1, b.2) else a

/-- The `generate` stage body of `run_with_arguments`. -/
def generate_stage (env : Env) (args : Arguments) : List Effect × Bool :=
  if env.generateOk then
    ([Effect.printMsg "Generating Responses",
      Effect.generate_responses_run,
      Effect.printMsg ("Generated responses for " ++ Int.repr args.num_students
        ++ " students and " ++ Int.repr args.num_problems ++ " ")], true)
  else
    ([Effect.printMsg "Generating Responses", Effect.generate_responses_run], false)

/-- The `train` stage body of `run_with_arguments`: ensure report
directories, split the dataset, train, then save the resolved model. -/
def train_stage (env : Env) (args : Arguments) : List Effect × Bool :=
  let e1 := make_necessary_directories args
  if !env.splitOk then
    (e1 ++ [Effect.sep_into_train_and_test args.data_file args.model_directory], false)
  else
    let e2 := e1 ++ [Effect.sep_into_train_and_test args.data_file args.model_directory,
                     Effect.printMsg "Training MIRT models"]
    let t := generate_model_with_parameters env args
    if !t.2 then (e2 ++ t.1, false)
    else seq2 (e2 ++ t.1, true) (save_model env args)

/-- `generate_roc_curve_from_model`: one call into the external
predictor/evaluator. -/
def generate_roc_curve_from_model (env : Env) (args : Arguments) :
    List Effect × Bool :=
  ([Effect.load_and_simulate_assessment args.model
      (args.model_directory ++ "rocs/" ++ args.datetime)
      (args.model_directory ++ "test.responses")], env.rocOk)

/-- The `visualize` stage body of `run_with_arguments`. -/
def visualize_stage (env : Env) (args : Arguments) : List Effect × Bool :=
  let r := generate_roc_curve_from_model env args
  if !r.2 then r
  else
    let e := r.1 ++ [Effect.printMsg ("visualizing for " ++ args.model),
                     Effect.show_roc (gen_param_str args)]
    if !env.showRocOk then (e, false)
    else
      let e2 := e ++ [Effect.show_exercises args.model]
      if !env.showExercisesOk then (e2, false) else (e2, true)

/-- The `test` stage body of `run_with_arguments`. -/
def test_stage (args : Arguments) : List Effect × Bool :=
  ([Effect.adaptive_pretest_main args.model], true)

/-- `run_with_arguments`: the four stage bodies guarded by their flags, in
the fixed order generate, train, visualize, test; an exception in any stage
aborts everything after it. -/
def run_with_arguments (env : Env) (args : Arguments) : List Effect × Bool :=
  let g := if args.generate then generate_stage env args else ([], true)
  let t := seq2 g (if args.train then train_stage env args else ([], true))
  let v := seq2 t (if args.visualize then visualize_stage env args else ([], true))
  seq2 v (if args.test then test_stage args else ([], true))

/-- `main`: parse the command line, then run with the parsed arguments;
the usage guidance (when printed) precedes the stage effects. -/
def main_trace (env : Env) (tokens : List String) (scriptDir now : String) :
    Except String (List Effect) :=
  match get_command_line_arguments tokens scriptDir now with
  | Except.error e => Except.error e
  | Except.ok (effs, args) => Except.ok (effs ++ (run_with_arguments env args).1)

/-- A map-style filesystem: each path optionally holds byte contents. -/
def FS : Type := String → Option (List Nat)

/-- `shutil.copyfile(src, dst)`: raises when source and destination are the
same file or the source is unreadable; otherwise replaces whatever is at
`dst` with the bytes of `src` and leaves every other path untouched. -/
def shutil_copyfile (fs : FS) (src dst : String) : Option FS :=
  if src = dst then none
  else
    match fs src with
    | none => none
    | some bytes => some (fun p => if p = dst then some bytes else fs p)

/-- The filesystem view of `save_model`: resolve the latest parameter file,
then `shutil.copyfile` it onto the configured model path. -/
def save_model_fs (env : Env) (args : Arguments) (fs : FS) : Option FS :=
  match get_latest_parameter_file_name env args with
  | none => none
  | some latest => shutil_copyfile fs latest args.model

/-- An effect is a pure console print (writes nothing to disk and calls no
collaborator that does). -/
def isPrintEffect : Effect → Bool
  | Effect.printMsg _ => true
  | Effect.printHelp => true
  | _ => false

/-- Digit list interpretation, for inverting `Nat.toDigits`. -/
def interp_digits (l : List Char) : Nat :=
  l.foldl (fun a c => 10 * a + (c.toNat - 48)) 0

/-- A fixed creation timestamp used in the concrete scenarios (the format
`str(datetime.datetime.now())` produces). -/
def sample_ts : String := "2015-06-01 12:00:00.000000"

/-- A train-only run with all defaults, stamped with `sample_ts`. -/
def sample_args : Arguments :=
  { default_arguments "/src" with train := true, datetime := sample_ts }

/-- All collaborators succeed and the trainer leaves three snapshots with
unpadded numeric suffixes. -/
def env_unpadded : Env :=
  { generateOk := true, splitOk := true, trainerOk := true,
    artifactListing := ["a_1", "a_2", "a_10"], rocOk := true,
    showRocOk := true, showExercisesOk := true }

/-- Same, but the suffixes are zero-padded. -/
def env_padded : Env := { env_unpadded with artifactListing := ["a_01", "a_02", "a_10"] }

/-- The trainer ran but left nothing behind. -/
def env_empty : Env := { env_unpadded with artifactListing := [] }

/-- Every collaborator succeeds except the predictor/evaluator backing the
visualize stage, which raises. -/
def env_vis_fail : Env := { env_unpadded with artifactListing := ["a_1"], rocOk := false }

/-- A run requesting both the visualize and the test stage. -/
def args_vis_test : Arguments :=
  { default_arguments "/src" with visualize := true, test := true, datetime := sample_ts }

/-- A filesystem holding exactly the snapshot the resolver selects for
`sample_args` under `env_unpadded`. -/
def sample_fs : FS := fun p =>
  if p = "/src/sample_data/models/1_no_time_2015-06-01 12:00:00.000000/a_2"
  then some [7, 7, 7] else none

/-- Command line requesting training with an ability count of zero. -/
def c2_tokens_zero : List String := ["--train", "-a", "0"]

/-- Command line requesting training with ability count 3 and 4 workers. -/
def c2_tokens_ok : List String := ["--train", "-a", "3", "-w", "4"]

/-- What parsing `c2_tokens_zero` yields. -/
def c2_args_zero : Arguments :=
  { default_arguments "/src" with train := true, abilities := 0, datetime := sample_ts }

/-- What parsing `c2_tokens_ok` yields. -/
def c2_args_ok : Arguments :=
  { default_arguments "/src" with
      train := true, abilities := 3, workers := 4, datetime := sample_ts }

/-- A run with response-time modeling enabled. -/
def c9_args : Arguments := { sample_args with time := true }

/-- A fixed configuration for the naming scenarios. -/
def c6_a : Arguments :=
  { default_arguments "/src" with
      abilities := 3, time := true, datetime := "2015-06-01 12:00:00.000000" }

/-- The same configuration started at a different instant. -/
def c6_b : Arguments := { c6_a with datetime := "2015-06-02 12:00:00.000000" }

/-! ### Order properties of the filename comparison -/

theorem charlist_le_refl : ∀ x : List Char, charlist_le x x = true := by
  intro x
  induction x with
  | nil => rfl
  | cons a as ih => simp [charlist_le, ih]

theorem charlist_le_total : ∀ x y : List Char,
    charlist_le x y = true ∨ charlist_le y x = true := by
  intro x
  induction x with
  | nil => intro y; left; rfl
  | cons a as ih =>
    intro y
    cases y with
    | nil => right; rfl
    | cons b bs =>
      simp only [charlist_le]
      rcases Nat.lt_trichotomy a.toNat b.toNat with h | h | h
      · left; simp [h]
      · have h1 : ¬ a.toNat < b.toNat := by omega
        have h2 : ¬ b.toNat < a.toNat := by omega
        rcases ih bs with h3 | h3
        · left; simp [h1, h2, h3]
        · right; simp [h1, h2, h3]
      · right; simp [h, Nat.lt_asymm h]

theorem charlist_le_trans : ∀ x y z : List Char,
    charlist_le x y = true → charlist_le y z = true → charlist_le x z = true := by
  intro x
  induction x with
  | nil => intro y z _ _; rfl
  | cons a as ih =>
    intro y z hxy hyz
    cases y with
    | nil => simp [charlist_le] at hxy
    | cons b bs =>
      cases z with
      | nil => simp [charlist_le] at hyz
      | cons c cs =>
        simp only [charlist_le] at hxy hyz ⊢
        by_cases hab : a.toNat < b.toNat <;> by_cases hbc : b.toNat < c.toNat
        · simp [show a.toNat < c.toNat by omega]
        · by_cases hcb : c.toNat < b.toNat
          · simp [hbc, hcb] at hyz
          · have hbc2 : b.toNat = c.toNat := by omega
            simp [show a.toNat < c.toNat by omega]
        · by_cases hba : b.toNat < a.toNat
          · simp [hab, hba] at hxy
          · simp [show a.toNat < c.toNat by omega]
        · by_cases hba : b.toNat < a.toNat
          · simp [hab, hba] at hxy
          · by_cases hcb : c.toNat < b.toNat
            · simp [hbc, hcb] at hyz
            · have hac : ¬ a.toNat < c.toNat := by omega
              have hca : ¬ c.toNat < a.toNat := by omega
              simp only [hab, hba, if_false] at hxy
              simp only [hbc, hcb, if_false] at hyz
              simp [hac, hca, ih bs cs hxy hyz]

instance : IsTotal String key_le :=
  ⟨fun a b => charlist_le_total (sort_key a) (sort_key b)⟩

instance : IsTrans String key_le :=
  ⟨fun a b c => charlist_le_trans (sort_key a) (sort_key b) (sort_key c)⟩

theorem key_le_refl (a : String) : key_le a a := charlist_le_refl (sort_key a)

/-- In a list sorted by `key_le`, every element relates to the last one. -/
theorem sorted_last_key_max :
    ∀ (l : List String) (h : l ≠ []), List.Sorted key_le l →
      ∀ x ∈ l, key_le x (l.getLast h) := by
  intro l
  induction l with
  | nil => intro h; exact absurd rfl h
  | cons a t ih =>
    intro _ hs x hx
    cases t with
    | nil =>
      rcases List.mem_singleton.mp hx with rfl
      exact key_le_refl x
    | cons b t2 =>
      rw [List.sorted_cons] at hs
      rw [List.getLast_cons (by simp : b :: t2 ≠ [])]
      rcases List.mem_cons.mp hx with rfl | hx2
      · exact hs.1 _ (List.getLast_mem _)
      · exact ih (by simp) hs.2 x hx2

/-- The resolver on a non-empty artifact listing: it returns the directory
path prepended to the last element of the listing sorted ascending by
trailing segment, which is an element of the listing whose sort key is
greatest. -/
theorem resolve_nonempty (env : Env) (args : Arguments)
    (hne : env.artifactListing ≠ []) :
    ∃ f, f ∈ env.artifactListing ∧ (∀ g ∈ env.artifactListing, key_le g f) ∧
      (List.insertionSort key_le env.artifactListing).getLast? = some f ∧
      get_latest_parameter_file_name env args = some (resolver_path args ++ f) := by
  have hperm := List.perm_insertionSort key_le env.artifactListing
  have hsne : List.insertionSort key_le env.artifactListing ≠ [] := by
    intro h
    exact hne (List.eq_nil_of_length_eq_zero (by
      rw [← hperm.length_eq, h]; rfl))
  refine ⟨(List.insertionSort key_le env.artifactListing).getLast hsne, ?_, ?_, ?_, ?_⟩
  · exact hperm.mem_iff.mp (List.getLast_mem hsne)
  · intro g hg
    exact sorted_last_key_max _ hsne (List.sorted_insertionSort key_le _) g
      (hperm.mem_iff.mpr hg)
  · exact List.getLast?_eq_getLast _ hsne
  · simp only [get_latest_parameter_file_name]
    rw [List.getLast?_eq_getLast _ hsne]

/-! ### Decimal representation: characters and injectivity -/

theorem toDigitsCore_acc (b : Nat) :
    ∀ (fuel n : Nat) (acc : List Char),
      Nat.toDigitsCore b fuel n acc = Nat.toDigitsCore b fuel n [] ++ acc := by
  intro fuel
  induction fuel with
  | zero => intro n acc; rfl
  | succ f ih =>
    intro n acc
    simp only [Nat.toDigitsCore]
    by_cases h : n / b = 0
    · simp [h]
    · simp only [h, if_false]
      rw [ih (n / b) (Nat.digitChar (n % b) :: acc), ih (n / b) [Nat.digitChar (n % b)]]
      simp

theorem digitChar_sub_48 : ∀ m : Nat, m < 10 → (Nat.digitChar m).toNat - 48 = m := by
  decide

theorem interp_digits_append_singleton (xs : List Char) (c : Char) :
    interp_digits (xs ++ [c]) = 10 * interp_digits xs + (c.toNat - 48) := by
  simp [interp_digits, List.foldl_append]

theorem interp_toDigitsCore :
    ∀ (fuel n : Nat), n < fuel →
      interp_digits (Nat.toDigitsCore 10 fuel n []) = n := by
  intro fuel
  induction fuel with
  | zero => intro n hn; omega
  | succ f ih =>
    intro n hn
    simp only [Nat.toDigitsCore]
    by_cases h : n / 10 = 0
    · have hlt : n < 10 := by omega
      have hmod : n % 10 = n := Nat.mod_eq_of_lt hlt
      simp only [h, if_true, interp_digits, List.foldl, if_pos]
      rw [hmod]
      have := digitChar_sub_48 n hlt
      omega
    · have hpos : 0 < n := by omega
      have hlt2 : n / 10 < n := Nat.div_lt_self hpos (by omega)
      simp only [h, if_false]
      rw [toDigitsCore_acc, interp_digits_append_singleton, ih (n / 10) (by omega)]
      have hm : n % 10 < 10 := Nat.mod_lt _ (by omega)
      rw [digitChar_sub_48 _ hm]
      omega

theorem nat_repr_injective {m n : Nat} (h : Nat.repr m = Nat.repr n) : m = n := by
  have hd : Nat.toDigits 10 m = Nat.toDigits 10 n := congrArg String.data h
  have hm := interp_toDigitsCore (m + 1) m (by omega)
  have hn := interp_toDigitsCore (n + 1) n (by omega)
  simp only [Nat.toDigits] at hd
  rw [← hm, ← hn, hd]

/-- Every character `Nat.toDigitsCore` can place comes from `digitChar` or
from the accumulator. -/
theorem toDigitsCore_chars (P : Char → Prop)
    (hP : ∀ k, k < 10 → P (Nat.digitChar k)) :
    ∀ (fuel n : Nat) (acc : List Char), (∀ c ∈ acc, P c) →
      ∀ c ∈ Nat.toDigitsCore 10 fuel n acc, P c := by
  intro fuel
  induction fuel with
  | zero => intro n acc hacc c hc; exact hacc c hc
  | succ f ih =>
    intro n acc hacc c hc
    simp only [Nat.toDigitsCore] at hc
    by_cases h : n / 10 = 0
    · simp only [h, if_true] at hc
      rcases List.mem_cons.mp hc with rfl | hc2
      · exact hP _ (Nat.mod_lt _ (by omega))
      · exact hacc c hc2
    · simp only [h, if_false] at hc
      refine ih (n / 10) (Nat.digitChar (n % 10) :: acc) ?_ c hc
      intro d hd
      rcases List.mem_cons.mp hd with rfl | hd2
      · exact hP _ (Nat.mod_lt _ (by omega))
      · exact hacc d hd2

theorem digitChar_ne : ∀ k : Nat, k < 10 →
    Nat.digitChar k ≠ '_' ∧ Nat.digitChar k ≠ 'z' ∧ Nat.digitChar k ≠ '-' := by
  decide

theorem nat_repr_chars (n : Nat) :
    ∀ c ∈ (Nat.repr n).data, c ≠ '_' ∧ c ≠ 'z' ∧ c ≠ '-' := by
  intro c hc
  have : (Nat.repr n).data = Nat.toDigits 10 n := rfl
  rw [this] at hc
  exact toDigitsCore_chars (fun c => c ≠ '_' ∧ c ≠ 'z' ∧ c ≠ '-') digitChar_ne (n + 1) n [] (by simp) c hc

theorem int_repr_chars (i : Int) :
    ∀ c ∈ (Int.repr i).data, c ≠ '_' ∧ c ≠ 'z' := by
  intro c hc
  cases i with
  | ofNat m =>
    have := nat_repr_chars m c hc
    exact ⟨this.1, this.2.1⟩
  | negSucc m =>
    have : (Int.repr (Int.negSucc m)).data = '-' :: (Nat.repr (m + 1)).data := by
      show (("-" : String) ++ Nat.repr (m + 1)).data = _
      rw [String.data_append]
      rfl
    rw [this] at hc
    rcases List.mem_cons.mp hc with rfl | hc2
    · exact ⟨by decide, by decide⟩
    · have := nat_repr_chars (m + 1) c hc2
      exact ⟨this.1, this.2.1⟩

theorem int_repr_injective : ∀ {i j : Int}, Int.repr i = Int.repr j → i = j := by
  intro i j h
  cases i with
  | ofNat m =>
    cases j with
    | ofNat n => exact congrArg Int.ofNat (nat_repr_injective h)
    | negSucc n =>
      exfalso
      have hd : (Nat.repr m).data = '-' :: (Nat.repr (n + 1)).data := by
        have : (Int.repr (Int.negSucc n)).data = '-' :: (Nat.repr (n + 1)).data := by
          show (("-" : String) ++ Nat.repr (n + 1)).data = _
          rw [String.data_append]; rfl
        rw [← this, ← h]; rfl
      have : ('-' : Char) ∈ (Nat.repr m).data := by rw [hd]; exact List.mem_cons_self _ _
      exact (nat_repr_chars m '-' this).2.2 rfl
  | negSucc m =>
    cases j with
    | ofNat n =>
      exfalso
      have hd : (Nat.repr n).data = '-' :: (Nat.repr (m + 1)).data := by
        have : (Int.repr (Int.negSucc m)).data = '-' :: (Nat.repr (m + 1)).data := by
          show (("-" : String) ++ Nat.repr (m + 1)).data = _
          rw [String.data_append]; rfl
        rw [← this, h]; rfl
      have : ('-' : Char) ∈ (Nat.repr n).data := by rw [hd]; exact List.mem_cons_self _ _
      exact (nat_repr_chars n '-' this).2.2 rfl
    | negSucc n =>
      have hd : ('-' :: (Nat.repr (m + 1)).data) = ('-' :: (Nat.repr (n + 1)).data) := by
        have h1 : (Int.repr (Int.negSucc m)).data = '-' :: (Nat.repr (m + 1)).data := by
          show (("-" : String) ++ Nat.repr (m + 1)).data = _
          rw [String.data_append]; rfl
        have h2 : (Int.repr (Int.negSucc n)).data = '-' :: (Nat.repr (n + 1)).data := by
          show (("-" : String) ++ Nat.repr (n + 1)).data = _
          rw [String.data_append]; rfl
        rw [← h1, ← h2, h]
      have : Nat.repr (m + 1) = Nat.repr (n + 1) :=
        String.ext (List.cons.inj hd).2
      have hmn := nat_repr_injective this
      have : m = n := by omega
      rw [this]

/-- Splitting a character list at a `'_'` that neither prefix contains is
unambiguous. -/
theorem append_underscore_inj :
    ∀ (xs ys r s : List Char), '_' ∉ xs → '_' ∉ ys →
      xs ++ '_' :: r = ys ++ '_' :: s → xs = ys ∧ r = s := by
  intro xs
  induction xs with
  | nil =>
    intro ys r s _ hy h
    cases ys with
    | nil => simpa using h
    | cons b bs =>
      exfalso
      simp only [List.nil_append, List.cons_append, List.cons.injEq] at h
      exact hy (h.1 ▸ List.mem_cons_self b bs)
  | cons a as ih =>
    intro ys r s hx hy h
    cases ys with
    | nil =>
      exfalso
      simp only [List.nil_append, List.cons_append, List.cons.injEq] at h
      exact hx (h.1.symm ▸ List.mem_cons_self a as)
    | cons b bs =>
      simp only [List.cons_append, List.cons.injEq] at h
      have := ih bs r s (fun hm => hx (List.mem_cons_of_mem a hm))
        (fun hm => hy (List.mem_cons_of_mem b hm)) h.2
      exact ⟨by rw [h.1, this.1], this.2⟩

/-! ### The run identifier determines the configuration triple -/

theorem gen_param_str_inj {a1 a2 : Arguments}
    (h : gen_param_str a1 = gen_param_str a2) :
    a1.abilities = a2.abilities ∧ a1.time = a2.time ∧ a1.datetime = a2.datetime := by
  have hd := congrArg String.data h
  have hu : ("_" : String).data = ['_'] := rfl
  simp only [gen_param_str, String.data_append, hu, List.append_assoc,
    List.singleton_append] at hd
  have h1 := append_underscore_inj _ _ _ _
    (fun hm => (int_repr_chars a1.abilities '_' hm).1 rfl)
    (fun hm => (int_repr_chars a2.abilities '_' hm).1 rfl) hd
  have hab : a1.abilities = a2.abilities := int_repr_injective (String.ext h1.1)
  have hrest := h1.2
  have hnt : ("no_time" : String).data = ['n', 'o', '_', 't', 'i', 'm', 'e'] := rfl
  have htt : ("time" : String).data = ['t', 'i', 'm', 'e'] := rfl
  cases ht1 : a1.time <;> cases ht2 : a2.time <;>
    simp only [ht1, ht2, if_true, if_false, Bool.false_eq_true, ite_false, ite_true] at hrest
  · refine ⟨hab, rfl, ?_⟩
    exact String.ext (List.cons.inj (List.append_cancel_left hrest)).2
  · exfalso
    simp only [List.append_eq, List.cons_append, List.nil_append,
      List.cons.injEq] at hrest
    exact absurd hrest.1 (by decide)
  · exfalso
    simp only [List.append_eq, List.cons_append, List.nil_append,
      List.cons.injEq] at hrest
    exact absurd hrest.1 (by decide)
  · refine ⟨hab, rfl, ?_⟩
    exact String.ext (List.cons.inj (List.append_cancel_left hrest)).2

/-! ### The time-mode switch -/

theorem int_repr_ne_dash_z (i : Int) : Int.repr i ≠ "-z" := by
  intro h
  have hz : ('z' : Char) ∈ (Int.repr i).data := by rw [h]; decide
  exact (int_repr_chars i 'z' hz).2 rfl

theorem train_responses_ne_dash_z (args : Arguments) :
    args.model_directory ++ "train.responses" ≠ "-z" := by
  intro h
  have := congrArg String.length h
  rw [String.length_append] at this
  have h15 : ("train.responses" : String).length = 15 := rfl
  have h2 : ("-z" : String).length = 2 := rfl
  omega

theorem gen_param_str_length (args : Arguments) : 6 ≤ (gen_param_str args).length := by
  have h1 : ("_" : String).length = 1 := rfl
  have h4 : ("time" : String).length = 4 := rfl
  have h7 : ("no_time" : String).length = 7 := rfl
  unfold gen_param_str
  cases ht : args.time <;>
    simp only [ht, String.length_append, if_true, if_false, Bool.false_eq_true,
      ite_true, ite_false] <;>
    omega

theorem out_dir_ne_dash_z (args : Arguments) : out_dir_name args ≠ "-z" := by
  intro h
  have := congrArg String.length h
  rw [out_dir_name, String.length_append, String.length_append] at this
  have h1 : ("/" : String).length = 1 := rfl
  have h2 : ("-z" : String).length = 2 := rfl
  have := gen_param_str_length args
  omega

theorem z_not_mem_base (args : Arguments) :
    "-z" ∉ ["-a", Int.repr args.abilities, "-w", Int.repr args.workers,
            "-n", Int.repr args.num_epochs,
            "-f", args.model_directory ++ "train.responses",
            "-o", out_dir_name args] := by
  intro h
  simp only [List.mem_cons, List.not_mem_nil, or_false] at h
  rcases h with h | h | h | h | h | h | h | h | h | h
  · exact absurd h (by decide)
  · exact int_repr_ne_dash_z args.abilities h.symm
  · exact absurd h (by decide)
  · exact int_repr_ne_dash_z args.workers h.symm
  · exact absurd h (by decide)
  · exact int_repr_ne_dash_z args.num_epochs h.symm
  · exact absurd h (by decide)
  · exact train_responses_ne_dash_z args h.symm
  · exact absurd h (by decide)
  · exact out_dir_ne_dash_z args h.symm

theorem z_mem_mirt_train_params (args : Arguments) :
    "-z" ∈ mirt_train_params args ↔ args.time = true := by
  cases ht : args.time
  · simp only [mirt_train_params, ht, Bool.false_eq_true, if_false, iff_false]
    exact z_not_mem_base args
  · simp only [mirt_train_params, ht, if_true, iff_true]
    exact List.mem_append_right _ (List.mem_singleton_self _)

/-! ### The test stage effect appears in no other stage fragment -/

theorem test_not_in_generate (env : Env) (args : Arguments) (m : String) :
    Effect.adaptive_pretest_main m ∉ (generate_stage env args).1 := by
  cases hg : env.generateOk <;> simp [generate_stage, hg]

theorem test_not_in_save (env : Env) (args : Arguments) (m : String) :
    Effect.adaptive_pretest_main m ∉ (save_model env args).1 := by
  rcases hr : get_latest_parameter_file_name env args with _ | latest <;>
    simp [save_model, hr]

theorem test_not_in_train (env : Env) (args : Arguments) (m : String) :
    Effect.adaptive_pretest_main m ∉ (train_stage env args).1 := by
  have hsave := test_not_in_save env args m
  cases hs : env.splitOk <;> cases htr : env.trainerOk <;>
    simp_all [train_stage, hs, htr, make_necessary_directories,
      generate_model_with_parameters, seq2]

theorem test_not_in_visualize (env : Env) (args : Arguments) (m : String) :
    Effect.adaptive_pretest_main m ∉ (visualize_stage env args).1 := by
  cases hr : env.rocOk <;> cases h1 : env.showRocOk <;> cases h2 : env.showExercisesOk <;>
    simp [visualize_stage, generate_roc_curve_from_model, hr, h1, h2]

theorem seq2_snd (a b : List Effect × Bool) : (seq2 a b).2 = (a.2 && b.2) := by
  unfold seq2
  by_cases h : a.2 = true
  · simp [h]
  · simp only [Bool.not_eq_true] at h
    simp [h]

theorem seq2_of_snd_false (a b : List Effect × Bool) (h : a.2 = false) :
    seq2 a b = a := by
  unfold seq2
  simp [h]

theorem seq2_mem (e : Effect) (a b : List Effect × Bool) :
    e ∈ (seq2 a b).1 → e ∈ a.1 ∨ e ∈ b.1 := by
  unfold seq2
  by_cases h : a.2 = true
  · simp only [h, if_true]
    exact fun hm => List.mem_append.mp hm
  · simp only [Bool.not_eq_true] at h
    simp only [h, Bool.false_eq_true, if_false]
    exact Or.inl

/-! ## Claims -/

/-- C1: for every non-empty artifact-directory listing,
`get_latest_parameter_file_name` sorts the filenames ascending by the
substring after the last underscore and returns the last element (an
element of the listing whose trailing segment is greatest); in particular
on the listing `a_1, a_2, a_10` it selects `a_2`, and on the zero-padded
listing `a_01, a_02, a_10` it selects `a_10`. -/
theorem resolver_picks_greatest_trailing_segment :
    (∀ (env : Env) (args : Arguments), env.artifactListing ≠ [] →
      ∃ f, f ∈ env.artifactListing ∧ (∀ g ∈ env.artifactListing, key_le g f) ∧
        (List.insertionSort key_le env.artifactListing).getLast? = some f ∧
        get_latest_parameter_file_name env args = some (resolver_path args ++ f))
    ∧ get_latest_parameter_file_name env_unpadded sample_args
        = some "/src/sample_data/models/1_no_time_2015-06-01 12:00:00.000000/a_2"
    ∧ get_latest_parameter_file_name env_padded sample_args
        = some "/src/sample_data/models/1_no_time_2015-06-01 12:00:00.000000/a_10" :=
  ⟨resolve_nonempty, by decide, by decide⟩

/-- Witness for C1: the resolver applied to the concrete unpadded listing. -/
theorem resolver_picks_greatest_trailing_segment_witness :
    ∃ f, f ∈ env_unpadded.artifactListing ∧
      (∀ g ∈ env_unpadded.artifactListing, key_le g f) ∧
      (List.insertionSort key_le env_unpadded.artifactListing).getLast? = some f ∧
      get_latest_parameter_file_name env_unpadded sample_args
        = some (resolver_path sample_args ++ f) :=
  resolver_picks_greatest_trailing_segment.1 env_unpadded sample_args (by decide)

/-- C2 (counterexample): the claim says constructing a configuration with
ability-dimension count 0 fails with `InvalidConfiguration`; in the code
`get_command_line_arguments` applies no range validation, so parsing
`--train -a 0` succeeds and stores ability count 0. -/
theorem config_with_zero_abilities_constructs :
    get_command_line_arguments c2_tokens_zero "/src" sample_ts
      = Except.ok ([], c2_args_zero)
    ∧ c2_args_zero.abilities = 0 ∧ c2_args_zero.train = true :=
  ⟨rfl, rfl, rfl⟩

/-- C2 (amended): configuration construction performs no range validation:
an ability count of 0 is accepted and stored; an ability count of 3
together with a worker count of 4 is likewise accepted with both values
stored. -/
theorem config_construction_unvalidated :
    (get_command_line_arguments c2_tokens_zero "/src" sample_ts
        = Except.ok ([], c2_args_zero)
      ∧ c2_args_zero.abilities = 0 ∧ c2_args_zero.train = true)
    ∧ (get_command_line_arguments c2_tokens_ok "/src" sample_ts
        = Except.ok ([], c2_args_ok)
      ∧ c2_args_ok.abilities = 3 ∧ c2_args_ok.workers = 4) :=
  ⟨⟨rfl, rfl, rfl⟩, ⟨rfl, rfl, rfl⟩⟩

/-- C3 (counterexample): the claim says a failure during the visualize
stage does not prevent the test stage; in the code the stages run in one
unprotected sequence, so when the predictor/evaluator behind visualize
raises, the adaptive test is never invoked even though both stages were
requested. -/
theorem visualize_failure_blocks_test_example :
    args_vis_test.visualize = true ∧ args_vis_test.test = true ∧
    (visualize_stage env_vis_fail args_vis_test).2 = false ∧
    Effect.adaptive_pretest_main args_vis_test.model
      ∉ (run_with_arguments env_vis_fail args_vis_test).1 := by
  decide

/-- C3 (amended): a failure during the visualize stage aborts the run, so
whenever visualize is selected and fails, the test stage is not attempted. -/
theorem visualize_failure_prevents_test (env : Env) (args : Arguments)
    (hv : args.visualize = true)
    (hfail : (visualize_stage env args).2 = false) :
    Effect.adaptive_pretest_main args.model ∉ (run_with_arguments env args).1 := by
  have hng : Effect.adaptive_pretest_main args.model
      ∉ (if args.generate then generate_stage env args else ([], true)).1 := by
    cases hc : args.generate
    · simp [hc]
    · simp only [hc, if_true]
      exact test_not_in_generate env args args.model
  have hnt : Effect.adaptive_pretest_main args.model
      ∉ (if args.train then train_stage env args else ([], true)).1 := by
    cases hc : args.train
    · simp [hc]
    · simp only [hc, if_true]
      exact test_not_in_train env args args.model
  have hnv := test_not_in_visualize env args args.model
  have hrun : run_with_arguments env args
      = seq2 (seq2 (seq2 (if args.generate then generate_stage env args else ([], true))
          (if args.train then train_stage env args else ([], true)))
          (visualize_stage env args))
          (if args.test then test_stage args else ([], true)) := by
    simp only [run_with_arguments, hv, if_true]
  have hv2 : (seq2 (seq2 (if args.generate then generate_stage env args else ([], true))
      (if args.train then train_stage env args else ([], true)))
      (visualize_stage env args)).2 = false := by
    rw [seq2_snd, hfail, Bool.and_false]
  rw [hrun, seq2_of_snd_false _ _ hv2]
  intro hm
  rcases seq2_mem _ _ _ hm with hm | hm
  · rcases seq2_mem _ _ _ hm with hm | hm
    · exact hng hm
    · exact hnt hm
  · exact hnv hm

/-- Witness for C3 (amended): at the concrete failing environment. -/
theorem visualize_failure_prevents_test_witness :
    Effect.adaptive_pretest_main args_vis_test.model
      ∉ (run_with_arguments env_vis_fail args_vis_test).1 :=
  visualize_failure_prevents_test env_vis_fail args_vis_test rfl (by decide)

/-- C4: on any non-empty artifact listing the resolver returns a path, and
on an empty listing it fails (returns no path; `save_model` then neither
prints nor copies anything). -/
theorem resolver_empty_vs_nonempty (env : Env) (args : Arguments) :
    (env.artifactListing = [] →
      get_latest_parameter_file_name env args = none
      ∧ save_model env args = ([], false))
    ∧ (env.artifactListing ≠ [] →
      ∃ p, get_latest_parameter_file_name env args = some p) := by
  constructor
  · intro h
    have hnone : get_latest_parameter_file_name env args = none := by
      simp [get_latest_parameter_file_name, h]
    exact ⟨hnone, by simp [save_model, hnone]⟩
  · intro h
    obtain ⟨f, _, _, _, hg⟩ := resolve_nonempty env args h
    exact ⟨_, hg⟩

/-- Witness for C4: the empty and the three-element listing. -/
theorem resolver_empty_vs_nonempty_witness :
    (get_latest_parameter_file_name env_empty sample_args = none
      ∧ save_model env_empty sample_args = ([], false))
    ∧ ∃ p, get_latest_parameter_file_name env_unpadded sample_args = some p :=
  ⟨(resolver_empty_vs_nonempty env_empty sample_args).1 rfl,
   (resolver_empty_vs_nonempty env_unpadded sample_args).2 (by decide)⟩

/-- C5: when parsing succeeds and no stage flag is set, the whole program
run prints the usage guidance and the parser help and performs no other
effect: no directory creation, no split, no trainer invocation, no copy. -/
theorem no_stage_flags_print_only (env : Env) (tokens : List String)
    (d now : String) (effs : List Effect) (args : Arguments)
    (hparse : get_command_line_arguments tokens d now = Except.ok (effs, args))
    (hg : args.generate = false) (ht : args.train = false)
    (hv : args.visualize = false) (hte : args.test = false) :
    main_trace env tokens d now
      = Except.ok [Effect.printMsg usage_msg, Effect.printHelp]
    ∧ ∀ e ∈ [Effect.printMsg usage_msg, Effect.printHelp], isPrintEffect e = true := by
  have hrun : run_with_arguments env args = ([], true) := by
    simp [run_with_arguments, seq2, hg, ht, hv, hte]
  have hmain : main_trace env tokens d now
      = Except.ok (effs ++ (run_with_arguments env args).1) := by
    simp only [main_trace, hparse]
  rw [hrun] at hmain
  simp only [List.append_nil] at hmain
  have heffs : effs = [Effect.printMsg usage_msg, Effect.printHelp] := by
    unfold get_command_line_arguments at hparse
    cases hp : parse_tokens tokens (default_arguments d) with
    | error e => rw [hp] at hparse; exact absurd hparse (by simp)
    | ok args0 =>
      rw [hp] at hparse
      simp only [Except.ok.injEq, Prod.mk.injEq] at hparse
      obtain ⟨heffs0, hargs0⟩ := hparse
      have hg0 : args0.generate = false := by rw [← hargs0] at hg; exact hg
      have ht0 : args0.train = false := by rw [← hargs0] at ht; exact ht
      have hv0 : args0.visualize = false := by rw [← hargs0] at hv; exact hv
      have hte0 : args0.test = false := by rw [← hargs0] at hte; exact hte
      rw [← heffs0]
      simp [usage_effects, hg0, ht0, hv0, hte0]
  rw [heffs] at hmain
  exact ⟨hmain, by decide⟩

/-- Witness for C5: a concrete invocation setting only `-a 3`. -/
theorem no_stage_flags_print_only_witness :
    main_trace env_unpadded ["-a", "3"] "/src" sample_ts
      = Except.ok [Effect.printMsg usage_msg, Effect.printHelp]
    ∧ ∀ e ∈ [Effect.printMsg usage_msg, Effect.printHelp], isPrintEffect e = true :=
  no_stage_flags_print_only env_unpadded ["-a", "3"] "/src" sample_ts _
    { default_arguments "/src" with abilities := 3, datetime := sample_ts }
    rfl rfl rfl rfl rfl

/-- C6: `gen_param_str` is a pure function of (abilities, time flag,
timestamp) in the format `abilities_mode_timestamp`; equal triples give
equal identifiers, distinct timestamps give distinct identifiers, and the
identifier determines the (dimension, mode, timestamp) triple. -/
theorem gen_param_str_deterministic_unique (a1 a2 : Arguments) :
    (a1.abilities = a2.abilities → a1.time = a2.time → a1.datetime = a2.datetime →
      gen_param_str a1 = gen_param_str a2)
    ∧ gen_param_str a1 = Int.repr a1.abilities ++ "_"
        ++ (if a1.time then "time" else "no_time") ++ "_" ++ a1.datetime
    ∧ (a1.abilities = a2.abilities → a1.time = a2.time → a1.datetime ≠ a2.datetime →
      gen_param_str a1 ≠ gen_param_str a2)
    ∧ (gen_param_str a1 = gen_param_str a2 →
      a1.abilities = a2.abilities ∧ a1.time = a2.time ∧ a1.datetime = a2.datetime) := by
  refine ⟨?_, rfl, ?_, fun h => gen_param_str_inj h⟩
  · intro h1 h2 h3
    simp [gen_param_str, h1, h2, h3]
  · intro _ _ h3 h
    exact h3 (gen_param_str_inj h).2.2

/-- Witness for C6: two runs differing only in their timestamp get
distinct identifiers. -/
theorem gen_param_str_deterministic_unique_witness :
    gen_param_str c6_a ≠ gen_param_str c6_b :=
  (gen_param_str_deterministic_unique c6_a c6_b).2.2.1 rfl rfl (by decide)

/-- C7: with the split and the trainer succeeding and a non-empty artifact
listing, the train stage performs exactly: create the report directory,
split the dataset, announce training, create the artifact directory,
invoke the trainer, announce saving, and copy the resolved artifact to the
configured model path — in this order; and the copy overwrites whatever
was at the model path. -/
theorem train_stage_step_order (env : Env) (args : Arguments)
    (hsplit : env.splitOk = true) (htrain : env.trainerOk = true)
    (hne : env.artifactListing ≠ []) :
    ∃ latest, get_latest_parameter_file_name env args = some latest ∧
      train_stage env args =
        ([Effect.mkdir_p (args.model_directory ++ "rocs/"),
          Effect.sep_into_train_and_test args.data_file args.model_directory,
          Effect.printMsg "Training MIRT models",
          Effect.mkdir_p (out_dir_name args),
          Effect.run_programmatically (mirt_train_params args),
          Effect.printMsg ("Saving model to " ++ args.model),
          Effect.copyfile latest args.model], true)
      ∧ ∀ (fs : FS) (bytes : List Nat), fs latest = some bytes →
          latest ≠ args.model →
          shutil_copyfile fs latest args.model
            = some (fun p => if p = args.model then some bytes else fs p) := by
  obtain ⟨f, _, _, _, hg⟩ := resolve_nonempty env args hne
  refine ⟨resolver_path args ++ f, hg, ?_, ?_⟩
  · simp [train_stage, hsplit, htrain, make_necessary_directories,
      generate_model_with_parameters, seq2, save_model, hg]
  · intro fs bytes hfs hne2
    simp [shutil_copyfile, hne2, hfs]

/-- Witness for C7: the concrete train-only run. -/
theorem train_stage_step_order_witness :
    ∃ latest, get_latest_parameter_file_name env_unpadded sample_args = some latest ∧
      train_stage env_unpadded sample_args =
        ([Effect.mkdir_p (sample_args.model_directory ++ "rocs/"),
          Effect.sep_into_train_and_test sample_args.data_file
            sample_args.model_directory,
          Effect.printMsg "Training MIRT models",
          Effect.mkdir_p (out_dir_name sample_args),
          Effect.run_programmatically (mirt_train_params sample_args),
          Effect.printMsg ("Saving model to " ++ sample_args.model),
          Effect.copyfile latest sample_args.model], true)
      ∧ ∀ (fs : FS) (bytes : List Nat), fs latest = some bytes →
          latest ≠ sample_args.model →
          shutil_copyfile fs latest sample_args.model
            = some (fun p => if p = sample_args.model then some bytes else fs p) :=
  train_stage_step_order env_unpadded sample_args rfl rfl (by decide)

/-- C8: `save_model` copies (does not move) the resolved snapshot: after
the copy the snapshot still holds its original bytes in the artifact
directory and the model path holds byte-identical contents. -/
theorem save_model_copies_preserving_source (env : Env) (args : Arguments)
    (fs : FS) (latest : String) (bytes : List Nat)
    (hres : get_latest_parameter_file_name env args = some latest)
    (hfs : fs latest = some bytes) (hne : latest ≠ args.model) :
    ∃ fs2, save_model_fs env args fs = some fs2
      ∧ fs2 latest = some bytes ∧ fs2 args.model = some bytes := by
  refine ⟨fun p => if p = args.model then some bytes else fs p, ?_, ?_, ?_⟩
  · simp [save_model_fs, hres, shutil_copyfile, hne, hfs]
  · simp [hne, hfs]
  · simp

/-- Witness for C8: copying the concrete snapshot `a_2`. -/
theorem save_model_copies_preserving_source_witness :
    ∃ fs2, save_model_fs env_unpadded sample_args sample_fs = some fs2
      ∧ fs2 "/src/sample_data/models/1_no_time_2015-06-01 12:00:00.000000/a_2"
          = some [7, 7, 7]
      ∧ fs2 sample_args.model = some [7, 7, 7] :=
  save_model_copies_preserving_source env_unpadded sample_args sample_fs
    "/src/sample_data/models/1_no_time_2015-06-01 12:00:00.000000/a_2" [7, 7, 7]
    (by decide) (by decide) (by decide)

/-- C9: the trainer argument list is exactly dimensionality, worker count
unmodified, epoch count, the pre-split training file path, the artifact
output directory, and the `-z` switch exactly when response-time modeling
is enabled. -/
theorem trainer_invocation_params (args : Arguments) :
    (args.time = true → mirt_train_params args =
      ["-a", Int.repr args.abilities, "-w", Int.repr args.workers,
       "-n", Int.repr args.num_epochs,
       "-f", args.model_directory ++ "train.responses",
       "-o", out_dir_name args, "-z"])
    ∧ (args.time = false → mirt_train_params args =
      ["-a", Int.repr args.abilities, "-w", Int.repr args.workers,
       "-n", Int.repr args.num_epochs,
       "-f", args.model_directory ++ "train.responses",
       "-o", out_dir_name args])
    ∧ ("-z" ∈ mirt_train_params args ↔ args.time = true) := by
  refine ⟨?_, ?_, z_mem_mirt_train_params args⟩
  · intro h; simp [mirt_train_params, h]
  · intro h; simp [mirt_train_params, h]

/-- Witness for C9: the parameter list of a run with time modeling on. -/
theorem trainer_invocation_params_witness :
    mirt_train_params c9_args =
      ["-a", Int.repr c9_args.abilities, "-w", Int.repr c9_args.workers,
       "-n", Int.repr c9_args.num_epochs,
       "-f", c9_args.model_directory ++ "train.responses",
       "-o", out_dir_name c9_args, "-z"] :=
  (trainer_invocation_params c9_args).1 rfl

/-- C10: the output directory handed to the trainer and the directory the
resolver lists are the same string, `model_directory ++ gen_param_str ++ "/"`,
and that string is exactly the value following `"-o"` in the trainer's
argument list. -/
theorem trainer_and_resolver_same_directory (args : Arguments) :
    out_dir_name args = resolver_path args
    ∧ resolver_path args = args.model_directory ++ gen_param_str args ++ "/"
    ∧ (mirt_train_params args)[9]? = some (out_dir_name args) := by
  refine ⟨rfl, rfl, ?_⟩
  cases ht : args.time <;> simp [mirt_train_params, ht]

end MirtPipeline
